import Mathlib

/-!
Verification of the chart-creation pipeline of `chart_creator.py`.

The embedding models the data-to-visual transform core of `create_chart`
(src/chart_creator.py): sorting the bar series by date, the rolling simple
moving average (window 150), the trailing-years filter, the gap-free
re-indexing, the up/down candle classification, the month-boundary tick
placement, the tick-label formatter `date_fmt`, and the trend-status
classification.  Floats are modelled as rationals; a pandas timestamp is
modelled as a `Date` carrying its absolute time in days together with its
calendar month and year (the calendar link between the two is used by no
property proved here: ordering and arithmetic read `days`, labels read
`month`/`year`, exactly as the source reads `<`/`-` versus `.month`/`.year`).
`NaN` cells of the SMA column are modelled as `Option.none`.  Raising an
uncaught exception before `savefig` is modelled as `Except.error`: an
`Except.ok` value is the rendered artifact, so an error run writes nothing.
-/

namespace ChartCreator

/-- A pandas timestamp as the source uses it: `days` is the absolute time in
days (what `sort_values`, `max()`, `Timedelta` subtraction and `>` read),
`month` and `year` are the calendar accessors `.month` / `.year`. -/
structure Date where
  days : ℚ
  month : Nat
  year : ℤ
deriving DecidableEq, Inhabited

/-- One row of the input table: columns `Date, Open, High, Low, Close, Vol, OI`
(the `Time` column is never read by the core). `open` is a Lean keyword, so the
open price is `open_`. -/
structure Bar where
  date : Date
  open_ : ℚ
  high : ℚ
  low : ℚ
  close : ℚ
  vol : ℚ
  oi : ℚ
deriving DecidableEq, Inhabited

/-- A row of the frame after line 86 added the SMA column: the bar plus its
`SMA150` cell, `none` standing for the `NaN` of an incomplete window. -/
structure Row where
  bar : Bar
  sma : Option ℚ
deriving DecidableEq, Inhabited

/-- Line 83: `lookback_window = 150`. -/
def lookback_window : Nat := 150

/-- The comparison `df.sort_values('Date')` sorts by (line 77). -/
def dateLE (a b : Bar) : Prop := a.date.days ≤ b.date.days

instance : DecidableRel dateLE := fun a b =>
  inferInstanceAs (Decidable (a.date.days ≤ b.date.days))

instance : IsTotal Bar dateLE := ⟨fun a b => le_total a.date.days b.date.days⟩

instance : IsTrans Bar dateLE := ⟨fun _ _ _ h h' => le_trans h h'⟩

/-- Line 77: `df = df.sort_values('Date')` — sort the rows ascending by date. -/
def sortBars (bars : List Bar) : List Bar := List.insertionSort dateLE bars

/-- Line 86: the cell of `df['Close'].rolling(window=150).mean()` at position
`i` — the mean of the 150 closes ending at `i`, `NaN` (here `none`) while the
window is incomplete. -/
def rollingMean (closes : List ℚ) (i : Nat) : Option ℚ :=
  if lookback_window ≤ i + 1 then
    some ((((closes.drop (i + 1 - lookback_window)).take lookback_window).sum) /
      (lookback_window : ℚ))
  else none

/-- Attach the SMA column to a (sorted) frame: row `i` carries the bar at
position `i` and the rolling mean at position `i` (line 86 runs on the sorted
frame of line 77, before any filtering). -/
def withSMA (bars : List Bar) : List Row :=
  (List.range bars.length).map fun i =>
    ⟨bars.getD i default, rollingMean (bars.map Bar.close) i⟩

/-- The frame as it stands after line 86: sorted by date, SMA column attached. -/
def sortedRows (bars : List Bar) : List Row := withSMA (sortBars bars)

/-- `df['Date'].max()` on a non-empty column (the `[]` case is never read:
line 91 runs under `if not df.empty`). -/
def maxDays : List ℚ → ℚ
  | [] => 0
  | x :: xs => xs.foldl max x

/-- Line 91: the maximum date of the frame the cutoff is computed from. -/
def maxDateOf (bars : List Bar) : ℚ :=
  maxDays ((sortedRows bars).map fun r => r.bar.date.days)

/-- Lines 90-92: `if not df.empty: cutoff = max - Timedelta(days=years*365);
df = df[df['Date'] > cutoff]`. -/
def prepareRows (years : ℚ) (bars : List Bar) : List Row :=
  if sortedRows bars = [] then sortedRows bars
  else (sortedRows bars).filter fun r =>
    decide (maxDateOf bars - years * 365 < r.bar.date.days)

/-- Line 95: `df = df.reset_index(drop=True)` — the prepared frame, each row
labelled by its new 0-based position (the plot index). -/
def prepare (years : ℚ) (bars : List Bar) : List (Nat × Row) :=
  (prepareRows years bars).enum

/-- Line 107: `up = df[df.Close >= df.Open]` — the "up" rows with their plot
indices. -/
def upGroup (df : List (Nat × Row)) : List (Nat × Row) :=
  df.filter fun x => decide (x.2.bar.close ≥ x.2.bar.open_)

/-- Line 108: `down = df[df.Close < df.Open]` — the "down" rows with their plot
indices. -/
def downGroup (df : List (Nat × Row)) : List (Nat × Row) :=
  df.filter fun x => decide (x.2.bar.close < x.2.bar.open_)

/-- Lines 171-174: the indices `i ≥ 1` whose month differs from the previous
row's month. -/
def monthBoundaries (dates : List Date) : List Nat :=
  (List.range dates.length).filter fun i =>
    decide (1 ≤ i ∧ (dates.getD i default).month ≠ (dates.getD (i - 1) default).month)

/-- Lines 176-179: `if not month_starts or month_starts[0] > 20:
month_starts.insert(0, 0)`. -/
def month_starts (dates : List Date) : List Nat :=
  if monthBoundaries dates = [] ∨ 20 < (monthBoundaries dates).headD 0 then
    0 :: monthBoundaries dates
  else monthBoundaries dates

/-- `strftime('%b')` for months 1..12. -/
def monthAbbrev (m : Nat) : String :=
  (["Jan", "Feb", "Mar", "Apr", "May", "Jun",
    "Jul", "Aug", "Sep", "Oct", "Nov", "Dec"]).getD (m - 1) ""

/-- Python `int(x)`: truncation of a rational toward zero (the numerator and
denominator are already in lowest terms, so T-division is exact truncation). -/
def pyInt (x : ℚ) : ℤ := x.num.tdiv (x.den : ℤ)

/-- Lines 158-165, `date_fmt`, with Python's conditional-expression parse kept:
the line-162 condition reads
`(dt.month == 1 and prev.year != dt.year) if idx > 0 else True`,
so at `idx = 0` the condition is `True` outright and the two-line
`'%b\n%Y'` label is produced whatever the month is. -/
def date_fmt (dates : List Date) (x : ℚ) : String :=
  let idx := pyInt x
  if 0 ≤ idx ∧ idx < (dates.length : ℤ) then
    let i := idx.toNat
    let dt := dates.getD i default
    let cond : Bool :=
      if 0 < i then
        decide (dt.month = 1 ∧ (dates.getD (i - 1) default).year ≠ dt.year)
      else true
    if cond then monthAbbrev dt.month ++ "\n" ++ toString dt.year
    else monthAbbrev dt.month
  else ""

/-- The three trend states of lines 193-201. -/
inductive TrendStatus where
  | below : TrendStatus
  | onSMA : TrendStatus
  | above : TrendStatus
deriving DecidableEq, Inhabited

/-- Lines 192-201: classify `diff_pct = (close - sma) / sma`. -/
def statusOf (close sma : ℚ) : TrendStatus :=
  if (close - sma) / sma < -0.005 then TrendStatus.below
  else if |(close - sma) / sma| ≤ 0.005 then TrendStatus.onSMA
  else TrendStatus.above

/-- The `status_text` strings of lines 195/198/201. -/
def statusText (w : Nat) : TrendStatus → String
  | TrendStatus.below => "Below (" ++ toString w ++ ") SMA"
  | TrendStatus.onSMA => "On (" ++ toString w ++ ") SMA"
  | TrendStatus.above => "Above (" ++ toString w ++ ") SMA"

/-- What a successful run draws and saves: the classified groups, the tick
positions and their labels, and the optional trend status with its annotation
text (line 208: the annotation is drawn only when a status was produced). -/
structure ChartOutput where
  upBars : List (Nat × Row)
  downBars : List (Nat × Row)
  ticks : List Nat
  tickLabels : List String
  status : Option TrendStatus
  annotationText : Option String
deriving DecidableEq, Inhabited

/-- The one uncaught failure of the core: line 185 `df.iloc[-1]` raises an
index error on an empty frame, aborting before line 226 `savefig`. -/
inductive ChartError where
  | lastBarIndexError : ChartError
deriving DecidableEq, Inhabited

/-- The core of `create_chart` after ingestion (lines 83-228): prepare the
frame, classify candles, place ticks, label them with `date_fmt`, read the
last row for the trend status (line 185 — the point that raises on an empty
frame), and save.  `Except.ok` is the saved image; `Except.error` is an abort
with no output file written. -/
def create_chart (years : ℚ) (bars : List Bar) : Except ChartError ChartOutput :=
  match (prepareRows years bars).getLast? with
  | none => Except.error ChartError.lastBarIndexError
  | some last =>
      Except.ok
        ⟨upGroup (prepare years bars),
         downGroup (prepare years bars),
         month_starts ((prepareRows years bars).map fun r => r.bar.date),
         (month_starts ((prepareRows years bars).map fun r => r.bar.date)).map
           (fun t => date_fmt ((prepareRows years bars).map fun r => r.bar.date) (t : ℚ)),
         last.sma.map (statusOf last.bar.close),
         (last.sma.map (statusOf last.bar.close)).map (statusText lookback_window)⟩

/-! ### Concrete inputs used by witnesses and counterexamples -/

/-- A March 2023 date (absolute day number 5 is arbitrary but consistent). -/
def dMar : Date := ⟨5, 3, 2023⟩

/-- A single March bar. -/
def bMar : Bar := ⟨dMar, 1, 1, 1, 1, 0, 0⟩

/-- The row `bMar` becomes after preparation (window incomplete, so no SMA). -/
def rMar : Row := ⟨bMar, none⟩

/-- A January bar at day 0. -/
def dJan0 : Date := ⟨0, 1, 2023⟩

/-- An up bar (close 2 > open 1) on `dJan0`. -/
def bJan0 : Bar := ⟨dJan0, 1, 2, 1, 2, 3, 0⟩

/-- A February bar one day later. -/
def dFeb1 : Date := ⟨1, 2, 2023⟩

/-- A flat bar on `dFeb1`. -/
def bFeb1 : Bar := ⟨dFeb1, 1, 1, 1, 1, 0, 0⟩

/-- Daily bars at days 0..149 (all prices 1). -/
def mkBar150 (k : Nat) : Bar := ⟨⟨(k : ℚ), 1, 2020⟩, 1, 1, 1, 1, 0, 0⟩

/-- The 150-bar input series. -/
def bars150 : List Bar := (List.range 150).map mkBar150

/-- Row `k` of the sorted, SMA-carrying frame built from `bars150`. -/
def row150 (k : Nat) : Row :=
  ⟨mkBar150 k, rollingMean (bars150.map Bar.close) k⟩

/-! ### Facts about the sorted, SMA-carrying frame -/

lemma sortBars_sorted (bars : List Bar) : List.Sorted dateLE (sortBars bars) :=
  List.sorted_insertionSort dateLE bars

lemma sortBars_perm (bars : List Bar) : (sortBars bars).Perm bars :=
  List.perm_insertionSort dateLE bars

lemma sortedRows_length (bars : List Bar) :
    (sortedRows bars).length = (sortBars bars).length := by
  simp [sortedRows, withSMA]

lemma sortedRows_getElem (bars : List Bar) (j : Nat)
    (hj : j < (sortedRows bars).length) :
    (sortedRows bars)[j] =
      ⟨(sortBars bars).getD j default,
       rollingMean ((sortBars bars).map Bar.close) j⟩ := by
  simp [sortedRows, withSMA]

lemma map_bar_sortedRows (bars : List Bar) :
    (sortedRows bars).map Row.bar = sortBars bars := by
  apply List.ext_getElem
  · simp [sortedRows, withSMA]
  · intro n h1 h2
    rw [List.getElem_map]
    rw [sortedRows_getElem bars n (by simpa using h1)]
    exact List.getD_eq_getElem _ _ h2

lemma sortedRows_days_eq (bars : List Bar) :
    ((sortedRows bars).map fun r => r.bar.date.days) =
      (sortBars bars).map fun b => b.date.days := by
  rw [← map_bar_sortedRows bars, List.map_map]
  rfl

lemma sortedRows_days_sorted (bars : List Bar) :
    ((sortedRows bars).map fun r => r.bar.date.days).Pairwise (· ≤ ·) := by
  rw [sortedRows_days_eq, List.pairwise_map]
  exact sortBars_sorted bars

lemma sortedRows_ne_nil {bars : List Bar} (hb : bars ≠ []) :
    sortedRows bars ≠ [] := by
  have h1 : (sortedRows bars).length = bars.length := by
    rw [sortedRows_length]
    exact (sortBars_perm bars).length_eq
  intro h
  rw [h] at h1
  exact hb (List.length_eq_zero.mp h1.symm)

/-! ### Facts about the column maximum -/

lemma foldl_max_spec (xs : List ℚ) :
    ∀ a : ℚ, (xs.foldl max a = a ∨ xs.foldl max a ∈ xs) ∧
      a ≤ xs.foldl max a ∧ ∀ y ∈ xs, y ≤ xs.foldl max a := by
  induction xs with
  | nil => intro a; simp
  | cons x xs ih =>
    intro a
    simp only [List.foldl_cons]
    obtain ⟨h1, h2, h3⟩ := ih (max a x)
    refine ⟨?_, le_trans (le_max_left a x) h2, ?_⟩
    · rcases h1 with h | h
      · rcases max_choice a x with hm | hm
        · rw [h, hm]; exact Or.inl rfl
        · rw [h, hm]; exact Or.inr (List.mem_cons_self x xs)
      · exact Or.inr (List.mem_cons_of_mem x h)
    · intro y hy
      rcases List.mem_cons.mp hy with rfl | hy
      · exact le_trans (le_max_right a y) h2
      · exact h3 y hy

lemma maxDays_mem {l : List ℚ} (h : l ≠ []) : maxDays l ∈ l := by
  cases l with
  | nil => exact absurd rfl h
  | cons x xs =>
    show xs.foldl max x ∈ x :: xs
    rcases (foldl_max_spec xs x).1 with h1 | h1
    · rw [h1]; exact List.mem_cons_self x xs
    · exact List.mem_cons_of_mem x h1

lemma le_maxDays {l : List ℚ} {y : ℚ} (hy : y ∈ l) : y ≤ maxDays l := by
  cases l with
  | nil => simp at hy
  | cons x xs =>
    show y ≤ xs.foldl max x
    rcases List.mem_cons.mp hy with rfl | hy
    · exact (foldl_max_spec xs y).2.1
    · exact (foldl_max_spec xs x).2.2 y hy

/-! ### The trailing-years filter drops a prefix of the sorted frame -/

lemma filter_days_suffix (c : ℚ) :
    ∀ l : List Row, ((l.map fun r => r.bar.date.days).Pairwise (· ≤ ·)) →
      ∃ d, d ≤ l.length ∧
        l.filter (fun r => decide (c < r.bar.date.days)) = l.drop d := by
  intro l
  induction l with
  | nil => intro _; exact ⟨0, le_refl 0, rfl⟩
  | cons r l ih =>
    intro hp
    rw [List.map_cons, List.pairwise_cons] at hp
    obtain ⟨hhead, htail⟩ := hp
    by_cases hc : c < r.bar.date.days
    · refine ⟨0, Nat.zero_le _, ?_⟩
      rw [List.drop_zero,
        @List.filter_cons_of_pos Row (fun r => decide (c < r.bar.date.days)) r l
          (decide_eq_true hc),
        List.filter_eq_self.mpr]
      intro x hx
      exact decide_eq_true
        (lt_of_lt_of_le hc (hhead _ (List.mem_map_of_mem _ hx)))
    · obtain ⟨d, hd, hf⟩ := ih htail
      refine ⟨d + 1, Nat.succ_le_succ hd, ?_⟩
      rw [@List.filter_cons_of_neg Row (fun r => decide (c < r.bar.date.days)) r l
          (by simpa using hc),
        hf, List.drop_succ_cons]

lemma prepareRows_eq_drop (years : ℚ) (bars : List Bar) :
    prepareRows years bars =
      (sortedRows bars).drop
        ((sortedRows bars).length - (prepareRows years bars).length) := by
  by_cases h : sortedRows bars = []
  · unfold prepareRows
    rw [if_pos h, h]
    rfl
  · obtain ⟨d, hd, hf⟩ := filter_days_suffix (maxDateOf bars - years * 365)
      (sortedRows bars) (sortedRows_days_sorted bars)
    have hpre : prepareRows years bars = (sortedRows bars).drop d := by
      unfold prepareRows
      rw [if_neg h]
      exact hf
    rw [hpre, List.length_drop, Nat.sub_sub_self hd]

lemma prepared_sublist_sorted (years : ℚ) (bars : List Bar) :
    (prepareRows years bars).Sublist (sortedRows bars) := by
  unfold prepareRows
  by_cases h : sortedRows bars = []
  · rw [if_pos h]
  · rw [if_neg h]
    exact List.filter_sublist _

lemma prepareRows_singleton (years : ℚ) (b : Bar) (hy : 0 < years) :
    prepareRows years [b] = [⟨b, none⟩] := by
  have hsr : sortedRows [b] = [⟨b, none⟩] := rfl
  unfold prepareRows
  rw [hsr, if_neg (List.cons_ne_nil _ _)]
  have hc : maxDateOf [b] - years * 365 < (⟨b, none⟩ : Row).bar.date.days :=
    show b.date.days - years * 365 < b.date.days from
      sub_lt_self _ (mul_pos hy (by norm_num))
  rw [@List.filter_cons_of_pos Row
      (fun r => decide (maxDateOf [b] - years * 365 < r.bar.date.days))
      ⟨b, none⟩ [] (decide_eq_true hc),
    List.filter_nil]

/-! ### Claim theorems -/

/-- C1 (code bug): contrary to the spec's labelling rule — month-only labels
for every non-January bar, index 0 included — the source's `date_fmt`
(lines 158-165) parses its condition as
`(month == 1 and prev.year != year) if idx > 0 else True`, so at index 0 it
produces the two-line month+year label for EVERY month.  Here a prepared
series whose bar 0 is dated March 2023 gets the two-line label
"Mar\n2023" instead of the month-only "Mar" the claim requires. -/
theorem date_fmt_index0_two_line : date_fmt [dMar] 0 = "Mar\n2023" := by decide

/-- C10: the formatter `date_fmt` is total on out-of-range tick coordinates:
whenever the truncated integer part of `x` falls outside `[0, length)` it
returns the empty string (line 165) and reads no element of the frame. -/
theorem date_fmt_total_out_of_range (dates : List Date) (x : ℚ)
    (h : pyInt x < 0 ∨ (dates.length : ℤ) ≤ pyInt x) :
    date_fmt dates x = "" := by
  have hc : ¬(0 ≤ pyInt x ∧ pyInt x < (dates.length : ℤ)) := by
    rintro ⟨h1, h2⟩
    rcases h with h | h
    · exact absurd h1 (not_le.mpr h)
    · exact absurd h2 (not_lt.mpr h)
  simp only [date_fmt]
  rw [if_neg hc]

/-- C10 witness: at the concrete coordinate `-1` on a one-bar series the
formatter returns the empty string. -/
theorem date_fmt_out_of_range_witness : date_fmt [dMar] (-1) = "" :=
  date_fmt_total_out_of_range [dMar] (-1) (Or.inl (by decide))

/-- C2 (amended): the pipeline aborts — with the line-185 `df.iloc[-1]` index
error, not with a typed `DataError`/`EmptySeriesError`, neither of which the
source defines — exactly when the prepared series is empty, and an abort
writes no output image (`Except.error` is raised before the `savefig` that
the `Except.ok` artifact stands for). -/
theorem emptySeries_abort_iff (years : ℚ) (bars : List Bar) :
    create_chart years bars = Except.error ChartError.lastBarIndexError ↔
      prepareRows years bars = [] := by
  constructor
  · intro h
    unfold create_chart at h
    cases hl : (prepareRows years bars).getLast? with
    | none => exact List.getLast?_eq_none_iff.mp hl
    | some last => rw [hl] at h; simp at h
  · intro h
    unfold create_chart
    rw [h]
    rfl

/-- C2 counterexample: the claim's "DataError for an empty sequence at
preparation" does not happen in the code — preparation (sort, SMA, filter)
completes on the empty input and returns the empty frame; the run aborts only
later, at the line-185 last-row read, before any file is written. -/
theorem emptySeries_preparation_total :
    prepareRows 1 ([] : List Bar) = [] ∧
      create_chart 1 ([] : List Bar) =
        Except.error ChartError.lastBarIndexError :=
  ⟨rfl, rfl⟩

/-- C6: the candle classification of lines 107-108 partitions the prepared
frame: a row is in the "up" group iff `close ≥ open` (ties up) and in the
"down" group iff `close < open`; the groups are disjoint, cover the frame,
and each row keeps its plot index (the groups hold the very
index-row pairs of the prepared frame). -/
theorem candle_partition (years : ℚ) (bars : List Bar) :
    (∀ x, x ∈ upGroup (prepare years bars) ↔
        x ∈ prepare years bars ∧ x.2.bar.close ≥ x.2.bar.open_) ∧
    (∀ x, x ∈ downGroup (prepare years bars) ↔
        x ∈ prepare years bars ∧ x.2.bar.close < x.2.bar.open_) ∧
    (∀ x, x ∈ prepare years bars ↔
        x ∈ upGroup (prepare years bars) ∨ x ∈ downGroup (prepare years bars)) ∧
    (∀ x, ¬(x ∈ upGroup (prepare years bars) ∧ x ∈ downGroup (prepare years bars))) := by
  refine ⟨fun x => ?_, fun x => ?_, fun x => ?_, fun x => ?_⟩
  · simp [upGroup, List.mem_filter]
  · simp [downGroup, List.mem_filter]
  · constructor
    · intro hx
      rcases le_or_lt x.2.bar.open_ x.2.bar.close with h | h
      · exact Or.inl (List.mem_filter.mpr ⟨hx, decide_eq_true h⟩)
      · exact Or.inr (List.mem_filter.mpr ⟨hx, decide_eq_true h⟩)
    · rintro (hx | hx)
      · exact (List.mem_filter.mp hx).1
      · exact (List.mem_filter.mp hx).1
  · rintro ⟨h1, h2⟩
    have hu := (List.mem_filter.mp h1).2
    have hd := (List.mem_filter.mp h2).2
    rw [decide_eq_true_iff] at hu hd
    exact absurd hd (not_lt.mpr hu)

/-- C8: after `reset_index(drop=True)` (line 95) the plot indices of the
prepared frame are exactly `0..n-1` in order, whatever gaps the input dates
had. -/
theorem plotIndex_contiguous (years : ℚ) (bars : List Bar) :
    (prepare years bars).map Prod.fst =
      List.range ((prepare years bars).length) := by
  simp only [prepare]
  rw [List.enum_map_fst, List.enum_length]

/-! ### Tick placement -/

lemma mem_monthBoundaries (dates : List Date) (i : Nat) :
    i ∈ monthBoundaries dates ↔
      1 ≤ i ∧ i < dates.length ∧
        (dates.getD i default).month ≠ (dates.getD (i - 1) default).month := by
  simp only [monthBoundaries, List.mem_filter, List.mem_range, decide_eq_true_iff]
  tauto

lemma monthBoundaries_sorted (dates : List Date) :
    (monthBoundaries dates).Pairwise (· < ·) :=
  List.Pairwise.filter _ (List.pairwise_lt_range _)

lemma headD_le_of_mem_monthBoundaries {dates : List Date} {i : Nat}
    (hi : i ∈ monthBoundaries dates) : (monthBoundaries dates).headD 0 ≤ i := by
  rcases hms : monthBoundaries dates with _ | ⟨h, t⟩
  · rw [hms] at hi; simp at hi
  · rw [hms] at hi
    rcases List.mem_cons.mp hi with rfl | hit
    · simp
    · have hp := monthBoundaries_sorted dates
      rw [hms] at hp
      simpa using le_of_lt (List.rel_of_pairwise_cons hp hit)

/-- C5: the tick set of lines 171-179 holds an index `i ≥ 1` exactly when the
month changes between rows `i-1` and `i`, and it holds index 0 exactly when no
such month boundary lies within the first 20 positions (the source condition
`not month_starts or month_starts[0] > 20`). -/
theorem tick_set_characterization (dates : List Date) :
    (∀ i, 1 ≤ i →
      (i ∈ month_starts dates ↔
        i < dates.length ∧
          (dates.getD i default).month ≠ (dates.getD (i - 1) default).month)) ∧
    (0 ∈ month_starts dates ↔
      ¬∃ i, 1 ≤ i ∧ i ≤ 20 ∧ i < dates.length ∧
        (dates.getD i default).month ≠ (dates.getD (i - 1) default).month) := by
  constructor
  · intro i hi
    unfold month_starts
    by_cases hc : monthBoundaries dates = [] ∨ 20 < (monthBoundaries dates).headD 0
    · rw [if_pos hc, List.mem_cons]
      constructor
      · rintro (rfl | hm)
        · omega
        · exact ((mem_monthBoundaries dates i).mp hm).2
      · intro hm
        exact Or.inr ((mem_monthBoundaries dates i).mpr ⟨hi, hm.1, hm.2⟩)
    · rw [if_neg hc]
      constructor
      · intro hm; exact ((mem_monthBoundaries dates i).mp hm).2
      · intro hm; exact (mem_monthBoundaries dates i).mpr ⟨hi, hm.1, hm.2⟩
  · have h0 : 0 ∉ monthBoundaries dates := by
      intro h0
      have := ((mem_monthBoundaries dates 0).mp h0).1
      omega
    unfold month_starts
    by_cases hc : monthBoundaries dates = [] ∨ 20 < (monthBoundaries dates).headD 0
    · rw [if_pos hc]
      simp only [List.mem_cons, eq_self_iff_true, true_or, true_iff]
      rintro ⟨i, h1, h20, hlen, hne⟩
      have hi : i ∈ monthBoundaries dates :=
        (mem_monthBoundaries dates i).mpr ⟨h1, hlen, hne⟩
      rcases hc with hc | hc
      · rw [hc] at hi; simp at hi
      · have := headD_le_of_mem_monthBoundaries hi
        omega
    · rw [if_neg hc]
      push_neg at hc
      obtain ⟨hne, hhead⟩ := hc
      constructor
      · intro h; exact absurd h h0
      · intro hno
        exfalso
        rcases hms : monthBoundaries dates with _ | ⟨h, t⟩
        · exact hne hms
        · have hmem : h ∈ monthBoundaries dates := by
            rw [hms]; exact List.mem_cons_self h t
          have hch := (mem_monthBoundaries dates h).mp hmem
          have hhead' : h ≤ 20 := by rw [hms] at hhead; simpa using hhead
          exact hno ⟨h, hch.1, hhead', hch.2.1, hch.2.2⟩

/-! ### The lookback filter -/

/-- C7: the trailing-years filter of lines 90-92 retains exactly the (sorted)
bars whose date exceeds `maxDate - years*365` days, where `maxDate` is the
latest date of the input. -/
theorem lookback_filter_exact (years : ℚ) (bars : List Bar) (hb : bars ≠ []) :
    (prepareRows years bars).map Row.bar =
      (sortBars bars).filter
        (fun b => decide (maxDateOf bars - years * 365 < b.date.days)) ∧
    (∃ b ∈ bars, b.date.days = maxDateOf bars) ∧
    (∀ b ∈ bars, b.date.days ≤ maxDateOf bars) := by
  have hrows : sortedRows bars ≠ [] := sortedRows_ne_nil hb
  refine ⟨?_, ?_, ?_⟩
  · unfold prepareRows
    rw [if_neg hrows]
    calc ((sortedRows bars).filter
          (fun r => decide (maxDateOf bars - years * 365 < r.bar.date.days))).map Row.bar
        = ((sortedRows bars).filter
            ((fun b => decide (maxDateOf bars - years * 365 < b.date.days)) ∘ Row.bar)).map
            Row.bar := rfl
      _ = ((sortedRows bars).map Row.bar).filter
            (fun b => decide (maxDateOf bars - years * 365 < b.date.days)) :=
          (List.filter_map Row.bar (sortedRows bars)).symm
      _ = (sortBars bars).filter
            (fun b => decide (maxDateOf bars - years * 365 < b.date.days)) := by
          rw [map_bar_sortedRows]
  · have hmem : maxDateOf bars ∈ (sortedRows bars).map fun r => r.bar.date.days :=
      maxDays_mem (by simpa using hrows)
    rw [sortedRows_days_eq] at hmem
    obtain ⟨b, hbmem, hbeq⟩ := List.mem_map.mp hmem
    exact ⟨b, (sortBars_perm bars).mem_iff.mp hbmem, hbeq⟩
  · intro b hbmem
    have hb' : b ∈ sortBars bars := (sortBars_perm bars).mem_iff.mpr hbmem
    have hbd : b.date.days ∈ (sortedRows bars).map fun r => r.bar.date.days := by
      rw [sortedRows_days_eq]
      exact List.mem_map_of_mem _ hb'
    exact le_maxDays hbd

/-- C7 witness: the filter characterization at the concrete one-bar input. -/
theorem lookback_filter_exact_witness :
    (prepareRows 1 [bMar]).map Row.bar =
      (sortBars [bMar]).filter
        (fun b => decide (maxDateOf [bMar] - 1 * 365 < b.date.days)) ∧
    (∃ b ∈ [bMar], b.date.days = maxDateOf [bMar]) ∧
    (∀ b ∈ [bMar], b.date.days ≤ maxDateOf [bMar]) :=
  lookback_filter_exact 1 [bMar] (by simp)

/-! ### Order of the prepared series -/

/-- C9 (amended): the prepared series is strictly increasing by date — hence
free of duplicate dates — whenever the input has no duplicate dates; the
source only sorts (line 77) and never deduplicates, so a duplicated input
date survives preparation (see the counterexample). -/
theorem prepared_strict_mono_of_nodup (years : ℚ) (bars : List Bar)
    (h : (bars.map fun b => b.date.days).Nodup) :
    (prepareRows years bars).Pairwise
      fun a b => a.bar.date.days < b.bar.date.days := by
  have hperm : ((sortBars bars).map fun b => b.date.days).Perm
      (bars.map fun b => b.date.days) := (sortBars_perm bars).map _
  have hnd : ((sortBars bars).map fun b => b.date.days).Nodup :=
    hperm.symm.nodup h
  have hsorted : ((sortBars bars).map fun b => b.date.days).Sorted (· ≤ ·) :=
    List.pairwise_map.mpr (sortBars_sorted bars)
  have hlt : ((sortBars bars).map fun b => b.date.days).Sorted (· < ·) :=
    hsorted.lt_of_le hnd
  have hrows : (sortedRows bars).Pairwise
      fun a b => a.bar.date.days < b.bar.date.days := by
    apply List.pairwise_map.mp
    rw [sortedRows_days_eq]
    exact hlt
  exact List.Pairwise.sublist (prepared_sublist_sorted years bars) hrows

/-- C9 witness: on a two-bar input with distinct dates the prepared series is
strictly increasing by date. -/
theorem prepared_strict_mono_witness :
    (prepareRows 1 [bJan0, bFeb1]).Pairwise
      fun a b => a.bar.date.days < b.bar.date.days :=
  prepared_strict_mono_of_nodup 1 [bJan0, bFeb1] (by decide)

lemma prepareRows_dup :
    prepareRows 1 [bJan0, bJan0] = [⟨bJan0, none⟩, ⟨bJan0, none⟩] := by
  have hsr : sortedRows [bJan0, bJan0] = [⟨bJan0, none⟩, ⟨bJan0, none⟩] := rfl
  unfold prepareRows
  rw [hsr, if_neg (List.cons_ne_nil _ _)]
  have hc : maxDateOf [bJan0, bJan0] - 1 * 365 <
      (⟨bJan0, none⟩ : Row).bar.date.days :=
    show maxDateOf [bJan0, bJan0] - 1 * 365 < (0 : ℚ) by
      have hm : maxDateOf [bJan0, bJan0] = 0 := rfl
      rw [hm]; norm_num
  rw [@List.filter_cons_of_pos Row
      (fun r => decide (maxDateOf [bJan0, bJan0] - 1 * 365 < r.bar.date.days))
      ⟨bJan0, none⟩ [⟨bJan0, none⟩] (decide_eq_true hc),
    @List.filter_cons_of_pos Row
      (fun r => decide (maxDateOf [bJan0, bJan0] - 1 * 365 < r.bar.date.days))
      ⟨bJan0, none⟩ [] (decide_eq_true hc),
    List.filter_nil]

/-- C9 counterexample: an input repeating the same date twice is NOT turned
into a strictly increasing series — both copies survive preparation with equal
dates, violating the claimed "strictly increasing, no duplicate dates" for
inputs that repeat dates. -/
theorem prepared_duplicate_dates_kept :
    (prepareRows 1 [bJan0, bJan0]).length = 2 ∧
      ((prepareRows 1 [bJan0, bJan0]).getD 0 default).bar.date.days =
        ((prepareRows 1 [bJan0, bJan0]).getD 1 default).bar.date.days := by
  rw [prepareRows_dup]
  exact ⟨rfl, rfl⟩

/-! ### Trend classification -/

lemma statusOf_spec (c m : ℚ) :
    (statusOf c m = TrendStatus.below ↔ (c - m) / m < -0.005) ∧
    (statusOf c m = TrendStatus.onSMA ↔
      (-0.005 ≤ (c - m) / m ∧ (c - m) / m ≤ 0.005)) ∧
    (statusOf c m = TrendStatus.above ↔ 0.005 < (c - m) / m) := by
  unfold statusOf
  by_cases h1 : (c - m) / m < -0.005
  · rw [if_pos h1]
    refine ⟨⟨fun _ => h1, fun _ => rfl⟩, ?_, ?_⟩
    · constructor
      · intro h; exact absurd h (by decide)
      · rintro ⟨ha, _⟩; exact absurd h1 (not_lt.mpr ha)
    · constructor
      · intro h; exact absurd h (by decide)
      · intro ha; exfalso; linarith
  · by_cases h2 : |(c - m) / m| ≤ 0.005
    · rw [if_neg h1, if_pos h2]
      obtain ⟨ha, hb⟩ := abs_le.mp h2
      refine ⟨?_, ⟨fun _ => ⟨ha, hb⟩, fun _ => rfl⟩, ?_⟩
      · exact ⟨fun h => absurd h (by decide), fun hh => absurd hh h1⟩
      · exact ⟨fun h => absurd h (by decide), fun hh => absurd hh (not_lt.mpr hb)⟩
    · rw [if_neg h1, if_neg h2]
      have ha : -0.005 ≤ (c - m) / m := not_lt.mp h1
      have hb : 0.005 < (c - m) / m := by
        rcases lt_abs.mp (not_le.mp h2) with h | h
        · exact h
        · exfalso; linarith
      refine ⟨?_, ?_, ⟨fun _ => hb, fun _ => rfl⟩⟩
      · exact ⟨fun h => absurd h (by decide), fun hh => absurd hh h1⟩
      · exact ⟨fun h => absurd h (by decide),
          fun hh => absurd hb (not_lt.mpr hh.2)⟩

/-- C4: lines 185-222 — when the last prepared row carries no moving average
(`pd.notna` fails) no trend status is produced and no annotation is drawn;
otherwise, with `diff = (close - movingAverage) / movingAverage` on that last
row, the status is Below exactly when `diff < -0.005`, On exactly when
`-0.005 ≤ diff ≤ 0.005` (both boundaries inclusive), and Above exactly when
`diff > 0.005`. -/
theorem trendStatus_thresholds (years : ℚ) (bars : List Bar) (last : Row)
    (out : ChartOutput)
    (hl : (prepareRows years bars).getLast? = some last)
    (ho : create_chart years bars = Except.ok out) :
    (last.sma = none → out.status = none ∧ out.annotationText = none) ∧
    (∀ m, last.sma = some m →
      ((out.status = some TrendStatus.below ↔
          (last.bar.close - m) / m < -0.005) ∧
       (out.status = some TrendStatus.onSMA ↔
          (-0.005 ≤ (last.bar.close - m) / m ∧
            (last.bar.close - m) / m ≤ 0.005)) ∧
       (out.status = some TrendStatus.above ↔
          0.005 < (last.bar.close - m) / m))) := by
  unfold create_chart at ho
  rw [hl] at ho
  dsimp only at ho
  injection ho with ho
  constructor
  · intro hs
    rw [← ho]
    dsimp only
    rw [hs]
    exact ⟨rfl, rfl⟩
  · intro m hm
    rw [← ho]
    dsimp only
    rw [hm]
    simp only [Option.map_some', Option.some.injEq]
    exact statusOf_spec last.bar.close m

lemma create_chart_bMar : create_chart 1 [bMar] = Except.ok
    ⟨[(0, rMar)], [], [0], ["Mar\n2023"], none, none⟩ := by
  unfold create_chart prepare
  rw [prepareRows_singleton 1 bMar (by norm_num)]
  rfl

/-- C4 witness: on the one-bar input the prepared series' last row carries no
moving average, and the rendered output indeed has no status and no
annotation. -/
theorem trendStatus_thresholds_witness :
    (⟨[(0, rMar)], [], [0], ["Mar\n2023"], none, none⟩ : ChartOutput).status
        = none ∧
      (⟨[(0, rMar)], [], [0], ["Mar\n2023"], none, none⟩ : ChartOutput).annotationText
        = none :=
  (trendStatus_thresholds 1 [bMar] rMar _
    (by rw [prepareRows_singleton 1 bMar (by norm_num)]; rfl)
    create_chart_bMar).1 rfl

/-! ### The moving average carried by the prepared series -/

/-- C3 (amended): the SMA column is computed on the FULL sorted series (line
86) before the trailing-years filter (lines 90-92), and the filter drops a
prefix of `d` rows; so the moving average carried at prepared position `i` is
defined iff `i + d ≥ w - 1` (equivalently `w ≤ i + d + 1`), and it is then the
mean of the closes at positions `i+d-w+1 .. i+d` of the full sorted series —
not of the prepared series, whose own window the claim mistakenly names. -/
theorem movingAverage_window_shifted (years : ℚ) (bars : List Bar) (i : Nat)
    (hi : i < (prepareRows years bars).length) :
    (((prepareRows years bars).getD i default).sma.isSome = true ↔
      lookback_window ≤
        i + ((sortBars bars).length - (prepareRows years bars).length) + 1) ∧
    (∀ m, ((prepareRows years bars).getD i default).sma = some m →
      m = ((((sortBars bars).map Bar.close).drop
            (i + ((sortBars bars).length - (prepareRows years bars).length) + 1 -
              lookback_window)).take lookback_window).sum /
          (lookback_window : ℚ)) := by
  have hlen : (sortedRows bars).length = (sortBars bars).length :=
    sortedRows_length bars
  have hdrop := prepareRows_eq_drop years bars
  rw [hlen] at hdrop
  set d := (sortBars bars).length - (prepareRows years bars).length with hd
  have hi' : i < ((sortedRows bars).drop d).length := by
    rw [← hdrop]; exact hi
  have hi2 : d + i < (sortedRows bars).length := by
    rw [List.length_drop] at hi'
    omega
  have hkey : (prepareRows years bars).getD i default = (sortedRows bars)[d + i] := by
    conv_lhs => rw [hdrop]
    rw [List.getD_eq_getElem _ _ hi', List.getElem_drop]
  rw [hkey, sortedRows_getElem bars (d + i) hi2]
  dsimp only
  constructor
  · unfold rollingMean
    by_cases hw : lookback_window ≤ d + i + 1
    · rw [if_pos hw]
      simp only [Option.isSome_some]
      constructor
      · intro _; omega
      · intro _; trivial
    · rw [if_neg hw]
      simp only [Option.isSome_none]
      constructor
      · intro h; exact absurd h (by decide)
      · intro h; omega
  · intro m hm
    unfold rollingMean at hm
    by_cases hw : lookback_window ≤ d + i + 1
    · rw [if_pos hw] at hm
      have hmv := (Option.some.injEq _ _).mp hm
      rw [← hmv, Nat.add_comm i d]
    · rw [if_neg hw] at hm
      exact absurd hm (by simp)

/-- C3 witness: the shifted-window characterization at the one-bar input,
position 0 (no bars dropped, window incomplete, SMA undefined). -/
theorem movingAverage_window_shifted_witness :
    (((prepareRows 1 [bMar]).getD 0 default).sma.isSome = true ↔
      lookback_window ≤
        0 + ((sortBars [bMar]).length - (prepareRows 1 [bMar]).length) + 1) ∧
    (∀ m, ((prepareRows 1 [bMar]).getD 0 default).sma = some m →
      m = ((((sortBars [bMar]).map Bar.close).drop
            (0 + ((sortBars [bMar]).length - (prepareRows 1 [bMar]).length) + 1 -
              lookback_window)).take lookback_window).sum /
          (lookback_window : ℚ)) :=
  movingAverage_window_shifted 1 [bMar] 0
    (by rw [prepareRows_singleton 1 bMar (by norm_num)]; decide)

/-! ### A 150-bar input refuting the claim's prepared-series window -/

lemma bars150_sorted : List.Sorted dateLE bars150 := by
  rw [bars150]
  rw [show (List.Sorted dateLE ((List.range 150).map mkBar150)) =
      List.Pairwise dateLE ((List.range 150).map mkBar150) from rfl]
  rw [List.pairwise_map]
  refine (List.pairwise_lt_range 150).imp ?_
  intro a b hab
  show ((a : ℚ)) ≤ (b : ℚ)
  exact_mod_cast le_of_lt hab

lemma sortBars_bars150 : sortBars bars150 = bars150 :=
  List.Sorted.insertionSort_eq bars150_sorted

lemma sortedRows_bars150 : sortedRows bars150 = (List.range 150).map row150 := by
  apply List.ext_getElem
  · rw [sortedRows_length, sortBars_bars150]
    simp [bars150]
  · intro n h1 h2
    have hn : n < bars150.length := by
      have := h1
      rw [sortedRows_length, sortBars_bars150] at this
      exact this
    rw [sortedRows_getElem bars150 n h1, sortBars_bars150]
    rw [List.getElem_map, List.getElem_range]
    rw [row150]
    congr 1
    rw [List.getD_eq_getElem _ _ hn]
    simp [bars150]

lemma maxDateOf_bars150 : maxDateOf bars150 = 149 := by
  have hmap : ((sortedRows bars150).map fun r => r.bar.date.days) =
      (List.range 150).map (Nat.cast : ℕ → ℚ) := by
    rw [sortedRows_bars150, List.map_map]
    rfl
  rw [show maxDateOf bars150 =
      maxDays ((sortedRows bars150).map fun r => r.bar.date.days) from rfl]
  rw [hmap]
  apply le_antisymm
  · have hmem := maxDays_mem
      (show (List.range 150).map (Nat.cast : ℕ → ℚ) ≠ [] by simp)
    obtain ⟨k, hk, hkeq⟩ := List.mem_map.mp hmem
    rw [← hkeq]
    have hk' : k ≤ 149 := by
      have := List.mem_range.mp hk
      omega
    exact_mod_cast hk'
  · apply le_maxDays
    exact List.mem_map.mpr ⟨149, List.mem_range.mpr (by omega), by norm_num⟩

lemma prepareRows_bars150 :
    prepareRows (1 / 5) bars150 = (List.range' 77 73).map row150 := by
  unfold prepareRows
  rw [if_neg (by rw [sortedRows_bars150]; simp)]
  rw [sortedRows_bars150, List.filter_map]
  congr 1
  have hcut : maxDateOf bars150 - 1 / 5 * 365 = (76 : ℚ) := by
    rw [maxDateOf_bars150]; norm_num
  have hpred : ∀ k ∈ List.range 150,
      ((fun r => decide (maxDateOf bars150 - 1 / 5 * 365 < r.bar.date.days)) ∘
        row150) k = decide (76 < k) := by
    intro k _
    show decide (maxDateOf bars150 - 1 / 5 * 365 < ((k : ℚ))) = decide (76 < k)
    rw [decide_eq_decide, hcut]
    exact_mod_cast Iff.rfl
  rw [List.filter_congr hpred]
  have hsplit : List.range 150 = List.range' 0 77 ++ List.range' 77 73 := by
    rw [List.range_eq_range']
    have h := List.range'_append 0 77 73 1
    simpa using h.symm
  rw [hsplit, List.filter_append]
  rw [List.filter_eq_nil_iff.mpr ?low, List.filter_eq_self.mpr ?high,
    List.nil_append]
  case low =>
    intro k hk
    have hk' := (List.mem_range'_1.mp hk).2
    simp only [decide_eq_true_iff, not_lt]
    omega
  case high =>
    intro k hk
    have hk' := (List.mem_range'_1.mp hk).1
    exact decide_eq_true (by omega)

/-- C3 counterexample: with `years = 1/5` the cutoff over `bars150` is day 76,
so 77 of the 150 bars are dropped and the prepared series has 73 positions;
position 72 (the original position 149) carries a DEFINED moving average even
though `72 < w - 1 = 149` — the claim's "defined iff `i ≥ w-1`" over prepared
positions is false (nor could a 150-close window of the 73-bar prepared
series even exist). -/
theorem movingAverage_prepared_index_refuted :
    (prepareRows (1 / 5) bars150).length = 73 ∧
    ((prepareRows (1 / 5) bars150).getD 72 default).sma.isSome = true ∧
    72 < lookback_window - 1 := by
  have hp := prepareRows_bars150
  refine ⟨?_, ?_, by decide⟩
  · rw [hp]
    simp
  · rw [hp]
    have h72 : 72 < ((List.range' 77 73).map row150).length := by simp
    rw [List.getD_eq_getElem _ _ h72]
    rw [List.getElem_map, List.getElem_range']
    show (row150 (77 + 1 * 72)).sma.isSome = true
    rw [show 77 + 1 * 72 = 149 from rfl]
    rw [show (row150 149).sma = rollingMean (bars150.map Bar.close) 149 from rfl]
    unfold rollingMean
    rw [if_pos (by decide : lookback_window ≤ 149 + 1)]
    rfl

end ChartCreator
